import Mathlib

/-!
Shallow embedding of the `user_api` repository for specification checking.

The repository contains four small REST services.  The library-management
service (books + categories, with a denormalized `bookCount` maintained by
`recalculateBookCount`) is embedded first; the user/auth service follows.
Mongo ObjectIds are modelled as natural numbers handed out by per-collection
counters; each Mongo collection is a Lean list.  External collaborators
(bcrypt, the MinIO presigned-URL generator) are modelled as opaque function
parameters, matching the specification's treatment of them as boundary
interfaces.  Timestamp bookkeeping (`createdAt` / `updatedAt`), which no claim
concerns, is not modelled.
-/

/-- Embeds the JS `String.prototype.trim` (used by `normaliseString` and the
Mongoose `trim` setters): whitespace removed from both ends.  Implemented
over the character list so that concrete witnesses can be evaluated by the
kernel (`String.trim` itself does not reduce there). -/
def trimString (s : String) : String :=
  String.mk (((s.data.dropWhile Char.isWhitespace).reverse.dropWhile
    Char.isWhitespace).reverse)

/-- Embeds the JS `String.prototype.toLowerCase` / Mongoose `lowercase`
setter, over the character list for the same reason. -/
def lowerString (s : String) : String := String.mk (s.data.map Char.toLower)

namespace LibraryService

/-- Embeds the `Book` document of the library-management service
(`bookSchema`): `title`, `author`, `isbn` (unique), required `category`
reference, optional `publishedYear`, `stock` defaulting to 0, optional
`description`.  The `min: 0` validators are captured by using `Nat`. -/
structure Book where
  id : Nat
  title : String
  author : String
  isbn : String
  category : Nat
  publishedYear : Option Nat
  stock : Nat
  description : Option String
deriving Repr, DecidableEq

/-- Embeds the `Category` document (`categorySchema`): unique required `name`,
optional `description`, `bookCount` defaulting to 0. -/
structure Category where
  id : Nat
  name : String
  description : Option String
  bookCount : Nat
deriving Repr, DecidableEq

/-- The two Mongo collections (`Categories`, `Books`) together with the
id-generation counters. -/
structure Store where
  categories : List Category
  books : List Book
  nextCategoryId : Nat
  nextBookId : Nat
deriving Repr, DecidableEq

/-- Embeds `Book.countDocuments({ category: categoryId })`. -/
def countBooks (books : List Book) (categoryId : Nat) : Nat :=
  (books.filter (fun b => b.category == categoryId)).length

/-- Embeds `recalculateBookCount(categoryId)`: count all books whose
`category` equals `categoryId`, then `Category.findByIdAndUpdate(categoryId,
{ bookCount: totalBooks })`.  When no category has that id the update matches
nothing and the state is unchanged.  The JS guard `if (!categoryId) return`
handles a missing argument; every call site passes an ObjectId, which is
never falsy, so the guard is not reachable in the model. -/
def recalculateBookCount (s : Store) (categoryId : Nat) : Store :=
  let totalBooks := countBooks s.books categoryId
  { s with
    categories := s.categories.map (fun c =>
      if c.id == categoryId then { c with bookCount := totalBooks } else c) }

/-- Embeds `Category.findById`. -/
def findCategory (s : Store) (categoryId : Nat) : Option Category :=
  s.categories.find? (fun c => c.id == categoryId)

/-- Embeds `Book.findById`. -/
def findBook (s : Store) (bookId : Nat) : Option Book :=
  s.books.find? (fun b => b.id == bookId)

/-- Request body for `POST /api/categories` and `PUT /api/categories/:id`;
`Option` records whether the key is present in `req.body`. -/
structure CategoryReq where
  name : Option String
  description : Option String
deriving Repr, DecidableEq

/-- Embeds `POST /api/categories` of the library-management service:
trim the name (`normaliseString`), reject a missing/empty name with 400,
map the duplicate-name unique-index error (`error.code === 11000`) to 409,
otherwise insert the category with `bookCount` 0 and answer 201. -/
def postCategory (s : Store) (r : CategoryReq) : Nat × Store :=
  let name := trimString (r.name.getD "")
  if name == "" then (400, s)
  else if s.categories.any (fun c => c.name == name) then (409, s)
  else
    let c : Category :=
      { id := s.nextCategoryId, name := name,
        description := r.description.map trimString, bookCount := 0 }
    (201, { s with categories := s.categories ++ [c],
                   nextCategoryId := s.nextCategoryId + 1 })

/-- Applies the update document built by `PUT /api/categories/:id` (only the
keys present in `req.body`, values trimmed) to one category record. -/
def applyCategoryUpdates (r : CategoryReq) (c : Category) : Category :=
  { c with
    name := (r.name.map trimString).getD c.name,
    description :=
      match r.description with
      | some d => some (trimString d)
      | none => c.description }

/-- Embeds `PUT /api/categories/:id`: build `updates` from the present keys,
`findByIdAndUpdate` with `runValidators` (an empty name fails the `required`
validator before the query matches, giving 400), answer 404 when the id
matches no category, map the duplicate-name index error to 409, otherwise
apply the update and answer 200.  No book-count recomputation happens here. -/
def putCategory (s : Store) (categoryId : Nat) (r : CategoryReq) : Nat × Store :=
  if r.name.any (fun n => trimString n == "") then (400, s)
  else
    match findCategory s categoryId with
    | none => (404, s)
    | some _ =>
      if r.name.any (fun n =>
          s.categories.any (fun c => c.name == trimString n && c.id != categoryId)) then
        (409, s)
      else
        (200, { s with categories := s.categories.map (fun c =>
                  if c.id == categoryId then applyCategoryUpdates r c else c) })

/-- Embeds `DELETE /api/categories/:id`: `Book.exists({ category: id })`
first — any referencing book gives 409 with nothing touched; then
`findByIdAndDelete`, answering 404 when the category is absent and 200 once
it is removed. -/
def deleteCategory (s : Store) (categoryId : Nat) : Nat × Store :=
  if s.books.any (fun b => b.category == categoryId) then (409, s)
  else
    match findCategory s categoryId with
    | none => (404, s)
    | some _ =>
      (200, { s with categories := s.categories.filter (fun c => c.id != categoryId) })

/-- Request body for `POST /api/books`; `categoryId` stands for
`req.body.categoryId || req.body.category` (`none` when both are falsy). -/
structure BookReq where
  title : Option String
  author : Option String
  isbn : Option String
  categoryId : Option Nat
  publishedYear : Option Nat
  stock : Option Nat
  description : Option String
deriving Repr, DecidableEq

/-- Embeds `POST /api/books`: trim title/author/isbn, reject any missing
required field with 400, answer 404 when the referenced category does not
exist, map the duplicate-isbn index error raised by `book.save()` to 409,
otherwise insert the book and run `recalculateBookCount(category._id)`. -/
def postBook (s : Store) (r : BookReq) : Nat × Store :=
  let title := trimString (r.title.getD "")
  let author := trimString (r.author.getD "")
  let isbn := trimString (r.isbn.getD "")
  match r.categoryId with
  | none => (400, s)
  | some categoryId =>
    if title == "" || author == "" || isbn == "" then (400, s)
    else
      match findCategory s categoryId with
      | none => (404, s)
      | some cat =>
        if s.books.any (fun b => b.isbn == isbn) then (409, s)
        else
          let book : Book :=
            { id := s.nextBookId, title := title, author := author, isbn := isbn,
              category := cat.id, publishedYear := r.publishedYear,
              stock := r.stock.getD 0, description := r.description.map trimString }
          let s1 := { s with books := s.books ++ [book], nextBookId := s.nextBookId + 1 }
          (201, recalculateBookCount s1 cat.id)

/-- Request body for `PUT /api/books/:id`; each `Option` field records
whether the key is present in `req.body`, and `categoryId` stands for
`req.body.categoryId || req.body.category`. -/
structure BookUpdateReq where
  title : Option String
  author : Option String
  isbn : Option String
  publishedYear : Option Nat
  stock : Option Nat
  description : Option String
  categoryId : Option Nat
deriving Repr, DecidableEq

/-- Applies `book.set({ ...updatedFields, category: newCategoryId })` to one
book record: present keys are overwritten (strings trimmed), the category
reference is set to `newCategoryId`. -/
def applyBookUpdates (r : BookUpdateReq) (newCategoryId : Nat) (b : Book) : Book :=
  { b with
    title := (r.title.map trimString).getD b.title,
    author := (r.author.map trimString).getD b.author,
    isbn := (r.isbn.map trimString).getD b.isbn,
    publishedYear :=
      match r.publishedYear with
      | some y => some y
      | none => b.publishedYear,
    stock := r.stock.getD b.stock,
    description :=
      match r.description with
      | some d => some (trimString d)
      | none => b.description,
    category := newCategoryId }

/-- Shared tail of `PUT /api/books/:id` once the book is found and the
category reference is resolved to `newCategoryId`: `book.save()` first runs
the validators (an emptied required field gives 400), then the unique-isbn
index (a clash with a different book gives 409); on success the book is
written and `recalculateBookCount` runs on the new category — and also on the
previous one when the request carried a category different from it
(`Promise.all` of two recomputes on distinct categories, modelled
sequentially). -/
def putBookSave (s : Store) (bookId : Nat) (r : BookUpdateReq) (book : Book)
    (newCategoryId : Nat) : Nat × Store :=
  if r.title.any (fun t => trimString t == "") || r.author.any (fun a => trimString a == "")
      || r.isbn.any (fun i => trimString i == "") then (400, s)
  else
    let updated := applyBookUpdates r newCategoryId book
    if s.books.any (fun b => b.isbn == updated.isbn && b.id != bookId) then (409, s)
    else
      let s1 := { s with books := s.books.map (fun b =>
                    if b.id == bookId then applyBookUpdates r newCategoryId b else b) }
      if r.categoryId.any (fun inc => inc != book.category) then
        (200, recalculateBookCount (recalculateBookCount s1 newCategoryId) book.category)
      else
        (200, recalculateBookCount s1 newCategoryId)

/-- Embeds `PUT /api/books/:id`: 404 when the book is absent; when the body
carries a category different from the book's current one, resolve it (404
when it does not exist) and use its id as `newCategoryId`; then save and
recompute as in `putBookSave`. -/
def putBook (s : Store) (bookId : Nat) (r : BookUpdateReq) : Nat × Store :=
  match findBook s bookId with
  | none => (404, s)
  | some book =>
    match r.categoryId with
    | some inc =>
      if inc == book.category then putBookSave s bookId r book book.category
      else
        match findCategory s inc with
        | none => (404, s)
        | some newCat => putBookSave s bookId r book newCat.id
    | none => putBookSave s bookId r book book.category

/-- Embeds `DELETE /api/books/:id`: `findByIdAndDelete` (404 when absent),
then `recalculateBookCount(book.category)` on the removed book's former
category. -/
def deleteBook (s : Store) (bookId : Nat) : Nat × Store :=
  match findBook s bookId with
  | none => (404, s)
  | some book =>
    let s1 := { s with books := s.books.filter (fun b => b.id != bookId) }
    (200, recalculateBookCount s1 book.category)

/-- A book maintenance operation, as quantified over by the spec's
invariant: create, update or delete of a book through the HTTP handlers. -/
inductive BookOp where
  | create (r : BookReq)
  | update (bookId : Nat) (r : BookUpdateReq)
  | remove (bookId : Nat)
deriving Repr, DecidableEq

/-- Runs one book operation through its route handler, keeping the resulting
store (the HTTP status is irrelevant to the state invariant). -/
def applyBookOp (s : Store) (op : BookOp) : Store :=
  match op with
  | .create r => (postBook s r).2
  | .update bookId r => (putBook s bookId r).2
  | .remove bookId => (deleteBook s bookId).2

/-- Runs a sequence of book operations to completion, each including its
recompute side effects. -/
def applyBookOps (s : Store) (ops : List BookOp) : Store :=
  ops.foldl applyBookOp s

/-- The spec's invariant: every category's cached `bookCount` equals the
number of book records referencing it. -/
def bookCountInvariant (s : Store) : Prop :=
  ∀ c ∈ s.categories, c.bookCount = countBooks s.books c.id

/-- Structural well-formedness the document store guarantees: `_id`s are
unique within the books collection and below the id counter. -/
def wellFormed (s : Store) : Prop :=
  (s.books.map (fun b => b.id)).Nodup ∧ ∀ b ∈ s.books, b.id < s.nextBookId

/-- A category's cached count is fresh: every category record carrying this
id holds the current number of books referencing the id. -/
def freshCount (s : Store) (categoryId : Nat) : Prop :=
  ∀ c ∈ s.categories, c.id = categoryId → c.bookCount = countBooks s.books categoryId

instance (s : Store) : Decidable (bookCountInvariant s) :=
  List.decidableBAll _ s.categories

instance (s : Store) (categoryId : Nat) : Decidable (freshCount s categoryId) :=
  List.decidableBAll _ s.categories

instance (s : Store) : Decidable (wellFormed s) := by
  unfold wellFormed
  infer_instance

end LibraryService

namespace UserService

/-- Embeds the `user` document (`userSchema` of `user.js` and its richer
variant): required personal fields, unique `userName` and `email`, the
bcrypt-hashed `password`, and `roleName` with enum values and default
`"user"`.  The date of birth is kept as its string form. -/
structure User where
  id : Nat
  firstName : String
  lastName : String
  userName : String
  image : String
  dob : String
  gender : String
  email : String
  password : String
  roleName : String
deriving Repr, DecidableEq

/-- The users collection plus the id counter. -/
structure UserStore where
  users : List User
  nextUserId : Nat
deriving Repr, DecidableEq

/-- The full stored document as Mongo returns it, as a key/value field list
(values rendered as strings; `__v` is the Mongoose version key). -/
def userDocFields (u : User) : List (String × String) :=
  [("_id", toString u.id), ("firstName", u.firstName), ("lastName", u.lastName),
   ("userName", u.userName), ("image", u.image), ("dob", u.dob),
   ("gender", u.gender), ("email", u.email), ("password", u.password),
   ("roleName", u.roleName), ("__v", "0")]

/-- Embeds the query projection `.select('-password -__v')`. -/
def selectNoPassword (doc : List (String × String)) : List (String × String) :=
  doc.filter (fun kv => !(kv.1 == "password") && !(kv.1 == "__v"))

/-- Embeds `addPresignedImageUrls` on a single user object: the value of the
`image` field is rewritten by the presigned-URL generator `f`, an opaque
boundary collaborator (its URL-parsing internals are out of scope per the
spec); all other fields are untouched. -/
def rewriteImageField (f : String → String) (doc : List (String × String)) :
    List (String × String) :=
  doc.map (fun kv => if kv.1 == "image" then (kv.1, f kv.2) else kv)

/-- Embeds the unanchored Mongoose `match` regex `.+@.+\..+` on the email:
some character, an `@`, some character(s), a dot, some character. -/
def emailMatches (e : String) : Bool :=
  let cs := e.data
  let n := cs.length
  (List.range n).any (fun p =>
    cs.get? p == some '@' && decide (1 ≤ p) &&
      (List.range n).any (fun q =>
        cs.get? q == some '.' && decide (p + 2 ≤ q) && decide (q + 1 < n)))

/-- Validators `userSchema` runs when a user document is written: required
fields non-empty (trimmed where the schema trims), `gender` and `roleName`
restricted to their enums, the email matching the regex, and the stored
password (the hash) at least 6 characters. -/
def validUserDoc (u : User) : Bool :=
  u.firstName != "" && u.lastName != "" && u.userName != "" &&
  u.image != "" && u.dob != "" &&
  (u.gender == "Male" || u.gender == "Female" || u.gender == "Other") &&
  u.email != "" && emailMatches u.email &&
  decide (6 ≤ u.password.length) &&
  (u.roleName == "admin" || u.roleName == "user" || u.roleName == "moderator")

/-- Registration request body.  String fields model a missing key as `""`
(both fail the `required` validator); `roleName` keeps the presence
distinction because Mongoose applies the `"user"` default only when the key
is absent. -/
structure RegisterReq where
  firstName : String
  lastName : String
  userName : String
  image : String
  dob : String
  gender : String
  email : String
  password : String
  confirmPassword : String
  roleName : Option String
deriving Repr, DecidableEq

/-- The user document `new User({...})` builds from a registration request:
schema setters trim the trimmed fields, lowercase and trim the email, store
the bcrypt hash `H password`, and default `roleName` to `"user"`. -/
def mkNewUser (H : String → String) (s : UserStore) (r : RegisterReq) : User :=
  { id := s.nextUserId,
    firstName := trimString r.firstName, lastName := trimString r.lastName,
    userName := trimString r.userName, image := r.image, dob := r.dob,
    gender := r.gender, email := trimString (lowerString r.email),
    password := H r.password, roleName := r.roleName.getD "user" }

/-- The explicit response object built by the richer service's register and
login handlers: every stored field except the password hash and `__v`. -/
def publicUserFields (u : User) : List (String × String) :=
  [("id", toString u.id), ("firstName", u.firstName), ("lastName", u.lastName),
   ("userName", u.userName), ("email", u.email), ("image", u.image),
   ("dob", u.dob), ("gender", u.gender), ("roleName", u.roleName)]

/-- Embeds `GET /api/users` of the richer user service: find all, project
away password and version key, rewrite image URLs, answer 200.  The body is
modelled as the list of user objects it contains. -/
def getUsers (f : String → String) (s : UserStore) :
    Nat × List (List (String × String)) :=
  (200, s.users.map (fun u => rewriteImageField f (selectNoPassword (userDocFields u))))

/-- Embeds `GET /api/users` of `user.js`: same query and projection, without
the presigned-URL rewriting. -/
def userJsGetUsers (s : UserStore) : Nat × List (List (String × String)) :=
  (200, s.users.map (fun u => selectNoPassword (userDocFields u)))

/-- Embeds `GET /api/users/:id`: find by id with the same projection, 404
when absent. -/
def getUserById (f : String → String) (s : UserStore) (userId : Nat) :
    Nat × List (List (String × String)) :=
  match s.users.find? (fun u => u.id == userId) with
  | none => (404, [])
  | some u => (200, [rewriteImageField f (selectNoPassword (userDocFields u))])

/-- Embeds `POST /api/users/register` of the richer user service: mismatched
password/confirmPassword gives 400 before any store access; an existing user
with the same email or username gives 409; a document failing the schema
validators gives 400; otherwise the user is saved (password hashed by the
opaque `H`) and the explicit no-password response object is returned with
201, its image URL rewritten by `f`. -/
def register (H : String → String) (f : String → String) (s : UserStore)
    (r : RegisterReq) : Nat × List (List (String × String)) × UserStore :=
  if r.password != r.confirmPassword then (400, [], s)
  else if s.users.any (fun u => u.email == r.email || u.userName == r.userName) then
    (409, [], s)
  else
    let newUser := mkNewUser H s r
    if !(validUserDoc newUser) then (400, [], s)
    else
      (201, [rewriteImageField f (publicUserFields newUser)],
        { users := s.users ++ [newUser], nextUserId := s.nextUserId + 1 })

/-- Embeds `POST /api/users/register` of `user.js`: identical logic, but the
response object holds only id, userName and email. -/
def userJsRegister (H : String → String) (s : UserStore) (r : RegisterReq) :
    Nat × List (List (String × String)) × UserStore :=
  if r.password != r.confirmPassword then (400, [], s)
  else if s.users.any (fun u => u.email == r.email || u.userName == r.userName) then
    (409, [], s)
  else
    let newUser := mkNewUser H s r
    if !(validUserDoc newUser) then (400, [], s)
    else
      (201, [[("id", toString newUser.id), ("userName", newUser.userName),
              ("email", newUser.email)]],
        { users := s.users ++ [newUser], nextUserId := s.nextUserId + 1 })

/-- Login request body; `none` models a falsy (missing or empty) value. -/
structure LoginReq where
  email : Option String
  userName : Option String
  password : Option String
deriving Repr, DecidableEq

/-- Embeds `POST /api/users/login`: 400 without a password or without any
identifier; look the user up by lowercased/trimmed email when an email is
given, else by trimmed username; 401 when absent or when `bcrypt.compare`
(the opaque `matchPw`) rejects; otherwise 200 with the explicit no-password
user object.  The store is never written. -/
def login (matchPw : String → String → Bool) (f : String → String)
    (s : UserStore) (r : LoginReq) : Nat × List (List (String × String)) :=
  let password := r.password.getD ""
  let email := r.email.getD ""
  let userName := r.userName.getD ""
  if password == "" || (email == "" && userName == "") then (400, [])
  else
    let found :=
      if email != "" then s.users.find? (fun u => u.email == trimString (lowerString email))
      else s.users.find? (fun u => u.userName == trimString userName)
    match found with
    | none => (401, [])
    | some u =>
      if !(matchPw password u.password) then (401, [])
      else (200, [rewriteImageField f (publicUserFields u)])

/-- Update request body for `PUT /api/users/:id`; `Option` records key
presence (`password` uses `none` for a falsy value, matching
`if (password)`). -/
structure UpdateUserReq where
  firstName : Option String
  lastName : Option String
  userName : Option String
  image : Option String
  dob : Option String
  gender : Option String
  email : Option String
  roleName : Option String
  password : Option String
  confirmPassword : Option String
deriving Repr, DecidableEq

/-- Applies the update document of `PUT /api/users/:id` to a stored user:
present keys overwrite (with the schema setters), a present password is
stored as its hash `H p`. -/
def applyUserUpdates (H : String → String) (r : UpdateUserReq) (u : User) : User :=
  { u with
    firstName := (r.firstName.map trimString).getD u.firstName,
    lastName := (r.lastName.map trimString).getD u.lastName,
    userName := (r.userName.map trimString).getD u.userName,
    image := r.image.getD u.image,
    dob := r.dob.getD u.dob,
    gender := r.gender.getD u.gender,
    email := (r.email.map (fun e => trimString (lowerString e))).getD u.email,
    roleName := r.roleName.getD u.roleName,
    password :=
      match r.password with
      | some p => H p
      | none => u.password }

/-- Embeds `PUT /api/users/:id`: when a password is supplied it must match
`confirmPassword` (400 otherwise) and is hashed into the update document;
`findByIdAndUpdate` with `runValidators` rejects an invalid updated document
with 400, answers 404 when the id matches no user, and a duplicate
userName/email raises the index error the handler does not special-case
(500); on success the updated document, minus password and version key, is
returned with its image URL rewritten. -/
def updateUser (H : String → String) (f : String → String) (s : UserStore)
    (userId : Nat) (r : UpdateUserReq) :
    Nat × List (List (String × String)) × UserStore :=
  if r.password.isSome && r.confirmPassword != r.password then (400, [], s)
  else
    match s.users.find? (fun u => u.id == userId) with
    | none => (404, [], s)
    | some u =>
      let updated := applyUserUpdates H r u
      if !(validUserDoc updated) then (400, [], s)
      else if s.users.any (fun v =>
          (v.userName == updated.userName || v.email == updated.email)
            && v.id != userId) then (500, [], s)
      else
        (200, [rewriteImageField f (selectNoPassword (userDocFields updated))],
          { s with users := s.users.map (fun v =>
              if v.id == userId then applyUserUpdates H r v else v) })

/-- Embeds `DELETE /api/users/:id`: `findByIdAndDelete` with the no-password
projection on the returned document; 404 when absent, otherwise 200 with the
deleted user's projected fields and the user removed from the store. -/
def deleteUser (f : String → String) (s : UserStore) (userId : Nat) :
    Nat × List (List (String × String)) × UserStore :=
  match s.users.find? (fun u => u.id == userId) with
  | none => (404, [], s)
  | some u =>
    (200, [rewriteImageField f (selectNoPassword (userDocFields u))],
      { s with users := s.users.filter (fun v => v.id != userId) })

/-- A response body (list of user objects) carries no `password` field. -/
def bodyNoPassword (body : List (List (String × String))) : Bool :=
  body.all (fun doc => doc.all (fun kv => kv.1 != "password"))

end UserService

namespace LegacyCategoryService

/-- Embeds the category document of the standalone category service
(`category.js`): unique required `name`, `bookCount` defaulting to 0,
optional `description`. -/
structure LegacyCategory where
  id : Nat
  name : String
  bookCount : Nat
  description : Option String
deriving Repr, DecidableEq

/-- The standalone service's categories collection plus the id counter. -/
structure LegacyStore where
  categories : List LegacyCategory
  nextId : Nat
deriving Repr, DecidableEq

/-- Embeds `POST /api/categories` of `category.js`: `new Category(req.body)`
followed by `save()`.  Every error — a missing/empty name failing `required`
as well as the duplicate-name unique-index error — lands in the single catch
block, which answers 400 (its comment: "status 400 for bad request (e.g.,
missing 'name' or name not unique)").  The body may set `bookCount`
directly; absent it defaults to 0. -/
def legacyPostCategory (s : LegacyStore) (name : Option String)
    (bookCount : Option Nat) (description : Option String) : Nat × LegacyStore :=
  match name with
  | none => (400, s)
  | some n =>
    if n == "" then (400, s)
    else if s.categories.any (fun c => c.name == n) then (400, s)
    else
      (201, { s with
        categories := s.categories ++
          [{ id := s.nextId, name := n, bookCount := bookCount.getD 0,
             description := description }],
        nextId := s.nextId + 1 })

end LegacyCategoryService

namespace LibraryService

/-- A concrete two-category store used by the witnesses below. -/
def demoStore : Store :=
  { categories := [{ id := 1, name := "Fiction", description := none, bookCount := 0 },
                   { id := 2, name := "Science", description := none, bookCount := 0 }],
    books := [], nextCategoryId := 3, nextBookId := 10 }

/-- Creation request for a book in category 1. -/
def demoCreateReq : BookReq :=
  { title := some "Dune", author := some "Herbert", isbn := some "111",
    categoryId := some 1, publishedYear := none, stock := none, description := none }

/-- Update request moving a book to category 2. -/
def demoMoveReq : BookUpdateReq :=
  { title := none, author := none, isbn := none, publishedYear := none,
    stock := none, description := none, categoryId := some 2 }

/-- Update request carrying no category reference. -/
def demoTouchReq : BookUpdateReq :=
  { title := some "Dune Messiah", author := none, isbn := none, publishedYear := none,
    stock := none, description := none, categoryId := none }

/-- A demo operation sequence: create a book, move it between categories,
delete it. -/
def demoOps : List BookOp :=
  [BookOp.create demoCreateReq, BookOp.update 10 demoMoveReq, BookOp.remove 10]

/-- The demo store after the demo book has been created. -/
def demoStoreWithBook : Store := (postBook demoStore demoCreateReq).2

/-- Store used by the C8 counterexample: no categories at all. -/
def cex8Store : Store :=
  { categories := [], books := [], nextCategoryId := 0, nextBookId := 0 }

/-- Request with an empty title and a dangling category reference. -/
def cex8Req : BookReq :=
  { title := some "", author := some "A", isbn := some "222", categoryId := some 5,
    publishedYear := none, stock := none, description := none }

/-- Creation request whose category reference names no category. -/
def demo404Req : BookReq :=
  { title := some "Hyperion", author := some "Simmons", isbn := some "333",
    categoryId := some 5, publishedYear := none, stock := none, description := none }

/-- Category creation request duplicating demoStore's "Fiction" name. -/
def demoDupCatReq : CategoryReq := { name := some "Fiction", description := none }

/-- Book creation request duplicating the isbn "111" of the demo book. -/
def demoDupIsbnReq : BookReq :=
  { title := some "Other", author := some "Other", isbn := some "111",
    categoryId := some 2, publishedYear := none, stock := none, description := none }

end LibraryService

namespace UserService

/-- An empty user store for the witnesses. -/
def demoUserStore : UserStore := { users := [], nextUserId := 0 }

/-- A registration request whose password and confirmPassword differ. -/
def demoMismatchReq : RegisterReq :=
  { firstName := "Ada", lastName := "L", userName := "ada", image := "img.png",
    dob := "2000-01-01", gender := "Female", email := "ada@ex.com",
    password := "secret1", confirmPassword := "secret2", roleName := none }

end UserService

namespace LegacyCategoryService

/-- A store of the standalone category service already holding "Fiction". -/
def legacyCexStore : LegacyStore :=
  { categories := [{ id := 1, name := "Fiction", bookCount := 0, description := none }],
    nextId := 2 }

end LegacyCategoryService

namespace LibraryService

theorem recalc_books (s : Store) (cid : Nat) :
    (recalculateBookCount s cid).books = s.books := rfl

theorem recalc_nextBookId (s : Store) (cid : Nat) :
    (recalculateBookCount s cid).nextBookId = s.nextBookId := rfl

theorem mem_recalc_self {s : Store} {cid : Nat} {c : Category}
    (hc : c ∈ (recalculateBookCount s cid).categories) (hid : c.id = cid) :
    c.bookCount = countBooks s.books cid := by
  simp only [recalculateBookCount, List.mem_map] at hc
  obtain ⟨c0, _, hmap⟩ := hc
  split at hmap
  · rw [← hmap]
  · rename_i hfalse
    rw [← hmap] at hid
    exact absurd hid (by simpa using hfalse)

theorem mem_recalc_other {s : Store} {cid : Nat} {c : Category}
    (hc : c ∈ (recalculateBookCount s cid).categories) (hid : c.id ≠ cid) :
    c ∈ s.categories := by
  simp only [recalculateBookCount, List.mem_map] at hc
  obtain ⟨c0, hc0, hmap⟩ := hc
  split at hmap
  · rename_i htrue
    rw [← hmap] at hid
    exact absurd (by simpa using htrue) hid
  · rw [← hmap]; exact hc0

theorem freshCount_recalc (s : Store) (cid : Nat) :
    freshCount (recalculateBookCount s cid) cid := by
  intro c hc hid
  rw [recalc_books]
  exact mem_recalc_self hc hid

theorem freshCount_recalc_ne {s : Store} {cid cid' : Nat} (hne : cid' ≠ cid)
    (h : freshCount s cid') : freshCount (recalculateBookCount s cid) cid' := by
  intro c hc hid
  rw [recalc_books]
  exact h c (mem_recalc_other hc (by rw [hid]; exact hne)) hid

theorem countBooks_append (l m : List Book) (cid : Nat) :
    countBooks (l ++ m) cid = countBooks l cid + countBooks m cid := by
  simp [countBooks, List.filter_append]

theorem countBooks_singleton (b : Book) (cid : Nat) :
    countBooks [b] cid = if b.category == cid then 1 else 0 := by
  by_cases h : b.category == cid <;> simp [countBooks, List.filter, h]

theorem countBooks_map_eq (l : List Book) (f : Book → Book) (cid : Nat)
    (h : ∀ b ∈ l, ((f b).category == cid) = (b.category == cid)) :
    countBooks (l.map f) cid = countBooks l cid := by
  induction l with
  | nil => rfl
  | cons b l ih =>
    have hb := h b (List.mem_cons_self b l)
    have ht := ih (fun x hx => h x (List.mem_cons_of_mem _ hx))
    simp only [countBooks, List.map_cons, List.filter_cons] at *
    rw [hb]
    split <;> simp [ht]

theorem countBooks_filter_eq (l : List Book) (p : Book → Bool) (cid : Nat)
    (h : ∀ b ∈ l, p b = false → (b.category == cid) = false) :
    countBooks (l.filter p) cid = countBooks l cid := by
  have key : List.filter (fun b => b.category == cid) (List.filter p l)
      = List.filter (fun b => b.category == cid) l := by
    induction l with
    | nil => rfl
    | cons b l ih =>
      have ht := ih (fun x hx => h x (List.mem_cons_of_mem _ hx))
      by_cases hp : p b
      · by_cases hcat : b.category == cid <;>
          simp [List.filter_cons, hp, hcat, ht]
      · have hcat := h b (List.mem_cons_self b l) (by simpa using hp)
        simp [List.filter_cons, hp, hcat, ht]
  unfold countBooks
  rw [key]

theorem findBook_mem {s : Store} {bid : Nat} {book : Book}
    (h : findBook s bid = some book) : book ∈ s.books :=
  List.mem_of_find?_eq_some h

theorem findBook_id {s : Store} {bid : Nat} {book : Book}
    (h : findBook s bid = some book) : book.id = bid := by
  have := List.find?_some h
  simpa using this

theorem findCategory_mem {s : Store} {cid : Nat} {cat : Category}
    (h : findCategory s cid = some cat) : cat ∈ s.categories :=
  List.mem_of_find?_eq_some h

theorem findCategory_id {s : Store} {cid : Nat} {cat : Category}
    (h : findCategory s cid = some cat) : cat.id = cid := by
  have := List.find?_some h
  simpa using this

theorem books_id_unique {s : Store} (hwf : wellFormed s) {b b' : Book}
    (hb : b ∈ s.books) (hb' : b' ∈ s.books) (h : b.id = b'.id) : b = b' :=
  List.inj_on_of_nodup_map hwf.1 hb hb' h

theorem wf_recalc (s : Store) (cid : Nat) (h : wellFormed s) :
    wellFormed (recalculateBookCount s cid) := h

theorem inv_insert_recalc (s : Store) (book : Book) (nb : Nat)
    (hinv : bookCountInvariant s) :
    bookCountInvariant
      (recalculateBookCount
        { s with books := s.books ++ [book], nextBookId := nb } book.category) := by
  intro c hc
  by_cases hcid : c.id = book.category
  · rw [recalc_books, hcid]
    exact mem_recalc_self hc hcid
  · have hc' := mem_recalc_other hc hcid
    rw [recalc_books]
    show c.bookCount = countBooks (s.books ++ [book]) c.id
    rw [countBooks_append, countBooks_singleton]
    have hne : (book.category == c.id) = false := by
      rw [beq_eq_false_iff_ne]
      exact fun h => hcid h.symm
    rw [hne]
    simpa using hinv c hc'

theorem inv_postBook (s : Store) (r : BookReq) (hinv : bookCountInvariant s) :
    bookCountInvariant (postBook s r).2 := by
  unfold postBook
  dsimp only
  repeat' split
  all_goals try exact hinv
  exact inv_insert_recalc s _ _ hinv

theorem wf_map_ids (s : Store) (g : Book → Book) (hid : ∀ b, (g b).id = b.id)
    (hwf : wellFormed s) : wellFormed { s with books := s.books.map g } := by
  constructor
  · show ((s.books.map g).map (fun b => b.id)).Nodup
    rw [List.map_map]
    have : s.books.map ((fun b => b.id) ∘ g) = s.books.map (fun b => b.id) :=
      List.map_congr_left (fun a _ => hid a)
    rw [this]
    exact hwf.1
  · intro b hb
    obtain ⟨b0, hb0, rfl⟩ := List.mem_map.1 hb
    show (g b0).id < s.nextBookId
    rw [hid]
    exact hwf.2 b0 hb0

theorem wf_insert (s : Store) (book : Book) (hwf : wellFormed s)
    (hid : book.id = s.nextBookId) :
    wellFormed { s with books := s.books ++ [book], nextBookId := s.nextBookId + 1 } := by
  constructor
  · show ((s.books ++ [book]).map (fun b => b.id)).Nodup
    rw [List.map_append, List.nodup_append]
    refine ⟨hwf.1, List.nodup_singleton _, ?_⟩
    intro a ha hb
    obtain ⟨b0, hb0, rfl⟩ := List.mem_map.1 ha
    have hlt := hwf.2 b0 hb0
    simp only [List.map_cons, List.map_nil, List.mem_singleton] at hb
    omega
  · intro b hb
    rcases List.mem_append.1 hb with h | h
    · have := hwf.2 b h
      show b.id < s.nextBookId + 1
      omega
    · simp only [List.mem_singleton] at h
      rw [h, hid]
      show s.nextBookId < s.nextBookId + 1
      omega

theorem wf_postBook (s : Store) (r : BookReq) (hwf : wellFormed s) :
    wellFormed (postBook s r).2 := by
  unfold postBook
  dsimp only
  repeat' split
  all_goals try exact hwf
  exact wf_recalc _ _ (wf_insert s _ hwf rfl)

theorem countBooks_update_other (s : Store) (bid : Nat) (r : BookUpdateReq)
    (book : Book) (ncid : Nat) (hwf : wellFormed s)
    (hbook : book ∈ s.books) (hbid : book.id = bid)
    (cid' : Nat) (h1 : cid' ≠ ncid) (h2 : cid' ≠ book.category) :
    countBooks (s.books.map (fun b =>
      if b.id == bid then applyBookUpdates r ncid b else b)) cid'
      = countBooks s.books cid' := by
  apply countBooks_map_eq
  intro b hb
  by_cases hb_id : b.id == bid
  · have hbb : b = book :=
      books_id_unique hwf hb hbook (by rw [hbid]; simpa using hb_id)
    rw [if_pos hb_id]
    have hupd : (applyBookUpdates r ncid b).category = ncid := rfl
    rw [hupd, hbb]
    have e1 : (ncid == cid') = false := by
      rw [beq_eq_false_iff_ne]; exact fun h => h1 h.symm
    have e2 : (book.category == cid') = false := by
      rw [beq_eq_false_iff_ne]; exact fun h => h2 h.symm
    rw [e1, e2]
  · rw [if_neg hb_id]

theorem inv_putBookSave (s : Store) (bid : Nat) (r : BookUpdateReq) (book : Book)
    (ncid : Nat) (hwf : wellFormed s) (hinv : bookCountInvariant s)
    (hfind : findBook s bid = some book)
    (hcase : r.categoryId.any (fun inc => inc != book.category) = true →
      ncid ≠ book.category)
    (hcase2 : r.categoryId.any (fun inc => inc != book.category) = false →
      ncid = book.category) :
    bookCountInvariant (putBookSave s bid r book ncid).2 := by
  have hbook := findBook_mem hfind
  have hbid := findBook_id hfind
  unfold putBookSave
  dsimp only
  split
  · exact hinv
  · split
    · exact hinv
    · split
      · -- category reference changed: both recomputes run
        rename_i hany
        have hne : ncid ≠ book.category := hcase hany
        intro c hc
        by_cases hcid : c.id = book.category
        · rw [recalc_books, recalc_books, hcid]
          have := mem_recalc_self hc hcid
          rw [recalc_books] at this
          exact this
        · by_cases hcid2 : c.id = ncid
          · have hfresh :
                freshCount (recalculateBookCount (recalculateBookCount
                  { s with books := s.books.map (fun b =>
                    if b.id == bid then applyBookUpdates r ncid b else b) } ncid)
                  book.category) ncid :=
              freshCount_recalc_ne hne (freshCount_recalc _ ncid)
            have := hfresh c hc hcid2
            rw [this, hcid2]
          · have hc1 := mem_recalc_other hc hcid
            have hc2 := mem_recalc_other hc1 hcid2
            rw [recalc_books, recalc_books]
            show c.bookCount = countBooks (s.books.map (fun b =>
              if b.id == bid then applyBookUpdates r ncid b else b)) c.id
            rw [countBooks_update_other s bid r book ncid hwf hbook hbid c.id hcid2 hcid]
            exact hinv c hc2
      · -- category reference unchanged: single recompute
        rename_i hany
        have heq : ncid = book.category := hcase2 (by simpa using hany)
        intro c hc
        by_cases hcid : c.id = ncid
        · rw [recalc_books, hcid]
          exact mem_recalc_self hc hcid
        · have hc' := mem_recalc_other hc hcid
          rw [recalc_books]
          show c.bookCount = countBooks (s.books.map (fun b =>
            if b.id == bid then applyBookUpdates r ncid b else b)) c.id
          rw [countBooks_update_other s bid r book ncid hwf hbook hbid c.id hcid
            (by rw [← heq]; exact hcid)]
          exact hinv c hc'

theorem inv_putBook (s : Store) (bid : Nat) (r : BookUpdateReq)
    (hwf : wellFormed s) (hinv : bookCountInvariant s) :
    bookCountInvariant (putBook s bid r).2 := by
  unfold putBook
  split
  · exact hinv
  · rename_i book hfind
    split
    · rename_i inc hinc
      split
      · rename_i heq
        apply inv_putBookSave s bid r book book.category hwf hinv hfind
        · intro h
          rw [hinc] at h
          simp only [Option.any_some] at h
          have : inc = book.category := by simpa using heq
          simp [this] at h
        · intro _
          rfl
      · rename_i hneq
        split
        · exact hinv
        · rename_i newCat hnewCat
          apply inv_putBookSave s bid r book newCat.id hwf hinv hfind
          · intro _
            rw [findCategory_id hnewCat]
            simpa using hneq
          · intro h
            rw [hinc] at h
            simp only [Option.any_some] at h
            have : inc = book.category := by simpa using h
            exact absurd (by simp [this] : (inc == book.category) = true) hneq
    · rename_i hnone
      apply inv_putBookSave s bid r book book.category hwf hinv hfind
      · intro h
        rw [hnone] at h
        simp at h
      · intro _
        rfl

theorem wf_putBookSave (s : Store) (bid : Nat) (r : BookUpdateReq) (book : Book)
    (ncid : Nat) (hwf : wellFormed s) :
    wellFormed (putBookSave s bid r book ncid).2 := by
  unfold putBookSave
  dsimp only
  split
  · exact hwf
  · split
    · exact hwf
    · have hmap : wellFormed { s with books := s.books.map (fun b =>
          if b.id == bid then applyBookUpdates r ncid b else b) } := by
        apply wf_map_ids
        · intro b
          dsimp only
          split <;> rfl
        · exact hwf
      split
      · exact wf_recalc _ _ (wf_recalc _ _ hmap)
      · exact wf_recalc _ _ hmap

theorem wf_putBook (s : Store) (bid : Nat) (r : BookUpdateReq)
    (hwf : wellFormed s) : wellFormed (putBook s bid r).2 := by
  unfold putBook
  split
  · exact hwf
  · split
    · split
      · exact wf_putBookSave _ _ _ _ _ hwf
      · split
        · exact hwf
        · exact wf_putBookSave _ _ _ _ _ hwf
    · exact wf_putBookSave _ _ _ _ _ hwf

theorem inv_deleteBook (s : Store) (bid : Nat)
    (hwf : wellFormed s) (hinv : bookCountInvariant s) :
    bookCountInvariant (deleteBook s bid).2 := by
  unfold deleteBook
  split
  · exact hinv
  · rename_i book hfind
    dsimp only
    intro c hc
    by_cases hcid : c.id = book.category
    · rw [recalc_books, hcid]
      exact mem_recalc_self hc hcid
    · have hc' := mem_recalc_other hc hcid
      rw [recalc_books]
      show c.bookCount = countBooks (s.books.filter (fun b => b.id != bid)) c.id
      rw [countBooks_filter_eq]
      · exact hinv c hc'
      · intro b hb hfalse
        have hbid : b.id = bid := by simpa using hfalse
        have hbb : b = book :=
          books_id_unique hwf hb (findBook_mem hfind)
            (by rw [hbid, findBook_id hfind])
        rw [hbb, beq_eq_false_iff_ne]
        exact fun h => hcid h.symm

theorem wf_deleteBook (s : Store) (bid : Nat) (hwf : wellFormed s) :
    wellFormed (deleteBook s bid).2 := by
  unfold deleteBook
  split
  · exact hwf
  · dsimp only
    apply wf_recalc
    constructor
    · show ((s.books.filter (fun b => b.id != bid)).map (fun b => b.id)).Nodup
      exact hwf.1.sublist ((List.filter_sublist s.books).map _)
    · intro b hb
      have hmem := (List.mem_filter.1 hb).1
      exact hwf.2 b hmem

theorem wf_applyBookOp (s : Store) (op : BookOp) (hwf : wellFormed s) :
    wellFormed (applyBookOp s op) := by
  cases op with
  | create r => exact wf_postBook s r hwf
  | update bid r => exact wf_putBook s bid r hwf
  | remove bid => exact wf_deleteBook s bid hwf

theorem inv_applyBookOp (s : Store) (op : BookOp)
    (hwf : wellFormed s) (hinv : bookCountInvariant s) :
    bookCountInvariant (applyBookOp s op) := by
  cases op with
  | create r => exact inv_postBook s r hinv
  | update bid r => exact inv_putBook s bid r hwf hinv
  | remove bid => exact inv_deleteBook s bid hwf hinv

/-- C1: For every category C, after any sequence of book create/update/delete
operations has fully completed (including the recompute side effects each
triggers), C.bookCount equals the number of Book records whose category field
equals C's id — starting from any well-formed store (unique book ids, as the
document store guarantees) in which the invariant holds. -/
theorem c1_bookCount_matches_after_ops (s : Store) (ops : List BookOp)
    (hwf : wellFormed s) (hinv : bookCountInvariant s) :
    bookCountInvariant (applyBookOps s ops) := by
  induction ops generalizing s with
  | nil => exact hinv
  | cons op ops ih =>
    exact ih (applyBookOp s op) (wf_applyBookOp s op hwf) (inv_applyBookOp s op hwf hinv)

/-- Witness for C1 at a concrete store and a concrete
create / move-between-categories / delete sequence. -/
theorem c1_bookCount_matches_after_ops_witness :
    wellFormed demoStore ∧ bookCountInvariant demoStore ∧
      bookCountInvariant (applyBookOps demoStore demoOps) :=
  ⟨by decide, by decide,
    c1_bookCount_matches_after_ops demoStore demoOps (by decide) (by decide)⟩

/-- C4: recompute performs a full recomputation: the books are untouched, and
every category record carrying the recomputed id holds the fresh full count
afterwards; when the id references no existing category the whole operation
is the identity on the store (a no-op, raising nothing). -/
theorem c4_recalculate_full_or_noop (s : Store) (cid : Nat) :
    (recalculateBookCount s cid).books = s.books ∧
    (∀ c ∈ (recalculateBookCount s cid).categories, c.id = cid →
      c.bookCount = countBooks s.books cid) ∧
    ((∀ c ∈ s.categories, c.id ≠ cid) → recalculateBookCount s cid = s) := by
  refine ⟨rfl, fun c hc hid => mem_recalc_self hc hid, fun h => ?_⟩
  unfold recalculateBookCount
  dsimp only
  have hpt : ∀ c ∈ s.categories,
      (if c.id == cid then { c with bookCount := countBooks s.books cid } else c) = c := by
    intro c hc
    rw [if_neg]
    simpa using h c hc
  rw [List.map_congr_left hpt]
  simp

/-- Witness for C4 at a concrete store whose single category does not carry
the recomputed id. -/
theorem c4_recalculate_full_or_noop_witness :
    (∀ c ∈ demoStore.categories, c.id ≠ 7) ∧ recalculateBookCount demoStore 7 = demoStore :=
  ⟨by decide, (c4_recalculate_full_or_noop demoStore 7).2.2 (by decide)⟩

/-- C5: recompute is idempotent — running it twice in succession with no
intervening book mutation yields the same store as running it once. -/
theorem c5_recalculate_idempotent (s : Store) (cid : Nat) :
    recalculateBookCount (recalculateBookCount s cid) cid
      = recalculateBookCount s cid := by
  unfold recalculateBookCount
  dsimp only
  congr 1
  rw [List.map_map]
  apply List.map_congr_left
  intro c _
  by_cases h : c.id == cid
  · simp only [Function.comp_apply, if_pos h]
  · simp only [Function.comp_apply, if_neg h]

theorem freshCount_putBookSave_self (s : Store) (bid : Nat) (r : BookUpdateReq)
    (book : Book) (s1 : Store)
    (hput : putBookSave s bid r book book.category = (200, s1)) :
    freshCount s1 book.category := by
  unfold putBookSave at hput
  dsimp only at hput
  split at hput
  · simp at hput
  · split at hput
    · simp at hput
    · split at hput
      · simp only [Prod.mk.injEq] at hput
        rw [← hput.2]
        exact freshCount_recalc _ _
      · simp only [Prod.mk.injEq] at hput
        rw [← hput.2]
        exact freshCount_recalc _ _

/-- C3: every book mutation triggers the specified recomputes, in the sense
that once the handler answers successfully the recomputed categories hold
their fresh full counts: creation refreshes the new book's category; an
update whose category reference changes from A to B refreshes both B and A;
an update that does not change the category refreshes the current category;
deletion refreshes the former category. -/
theorem c3_mutations_trigger_recomputes (s : Store) :
    (∀ r s1 cid, r.categoryId = some cid → postBook s r = (201, s1) →
      freshCount s1 cid) ∧
    (∀ bid r book inc s1, findBook s bid = some book → r.categoryId = some inc →
      inc ≠ book.category → putBook s bid r = (200, s1) →
      freshCount s1 inc ∧ freshCount s1 book.category) ∧
    (∀ bid r book s1, findBook s bid = some book →
      (r.categoryId = none ∨ r.categoryId = some book.category) →
      putBook s bid r = (200, s1) → freshCount s1 book.category) ∧
    (∀ bid book s1, findBook s bid = some book → deleteBook s bid = (200, s1) →
      freshCount s1 book.category) := by
  refine ⟨?_, ?_, ?_, ?_⟩
  · intro r s1 cid hcid hpost
    unfold postBook at hpost
    rw [hcid] at hpost
    dsimp only at hpost
    split at hpost
    · simp at hpost
    · split at hpost
      · simp at hpost
      · rename_i cat hcat
        split at hpost
        · simp at hpost
        · simp only [Prod.mk.injEq] at hpost
          rw [← hpost.2, ← findCategory_id hcat]
          exact freshCount_recalc _ _
  · intro bid r book inc s1 hfind hinc hne hput
    unfold putBook at hput
    rw [hfind, hinc] at hput
    dsimp only at hput
    rw [if_neg (by simpa using hne)] at hput
    split at hput
    · simp at hput
    · rename_i newCat hnewCat
      unfold putBookSave at hput
      dsimp only at hput
      split at hput
      · simp at hput
      · split at hput
        · simp at hput
        · split at hput
          · simp only [Prod.mk.injEq] at hput
            rw [← hput.2]
            have hid := findCategory_id hnewCat
            constructor
            · rw [← hid]
              exact freshCount_recalc_ne (by rw [hid]; exact hne)
                (freshCount_recalc _ _)
            · exact freshCount_recalc _ _
          · rename_i hany
            rw [hinc] at hany
            simp only [Option.any_some] at hany
            exact absurd (by simpa using hany) hne
  · intro bid r book s1 hfind hopt hput
    unfold putBook at hput
    rw [hfind] at hput
    dsimp only at hput
    rcases hopt with hnone | hsome
    · rw [hnone] at hput
      dsimp only at hput
      exact freshCount_putBookSave_self s bid r book s1 hput
    · rw [hsome] at hput
      dsimp only at hput
      rw [if_pos (by simp)] at hput
      exact freshCount_putBookSave_self s bid r book s1 hput
  · intro bid book s1 hfind hdel
    unfold deleteBook at hdel
    rw [hfind] at hdel
    dsimp only at hdel
    simp only [Prod.mk.injEq] at hdel
    rw [← hdel.2]
    exact freshCount_recalc _ _

/-- Witness for C3: moving the concrete demo book from category 1 to
category 2 leaves both categories with fresh counts. -/
theorem c3_mutations_trigger_recomputes_witness :
    freshCount (putBook demoStoreWithBook 10 demoMoveReq).2 2 ∧
      freshCount (putBook demoStoreWithBook 10 demoMoveReq).2 1 :=
  (c3_mutations_trigger_recomputes demoStoreWithBook).2.1 10 demoMoveReq
    { id := 10, title := "Dune", author := "Herbert", isbn := "111", category := 1,
      publishedYear := none, stock := 0, description := none }
    2 (putBook demoStoreWithBook 10 demoMoveReq).2
    (by decide) (by decide) (by decide) (by decide)

/-- C7: updating a category in place touches only name and description: the
books collection and every category's (id, bookCount) pair are unchanged by
PUT /api/categories/:id, whatever the request and outcome. -/
theorem c7_putCategory_preserves_bookCount (s : Store) (cid : Nat) (r : CategoryReq) :
    ((putCategory s cid r).2).books = s.books ∧
    ((putCategory s cid r).2).categories.map (fun c => (c.id, c.bookCount))
      = s.categories.map (fun c => (c.id, c.bookCount)) := by
  unfold putCategory
  repeat' split
  all_goals try exact ⟨rfl, rfl⟩
  refine ⟨rfl, ?_⟩
  show (s.categories.map fun c =>
    if c.id == cid then applyCategoryUpdates r c else c).map (fun c => (c.id, c.bookCount))
      = s.categories.map (fun c => (c.id, c.bookCount))
  rw [List.map_map]
  apply List.map_congr_left
  intro c _
  simp only [Function.comp_apply]
  split <;> rfl

/-- C2: deleting a category with at least one referencing book answers 409
and leaves the whole store unmodified; deleting a category with zero
referencing books answers 200, removes exactly that category, and leaves the
books unmodified. -/
theorem c2_deleteCategory_guard (s : Store) (cid : Nat) :
    ((∃ c ∈ s.categories, c.id = cid) → (∃ b ∈ s.books, b.category = cid) →
      deleteCategory s cid = (409, s)) ∧
    ((∃ c ∈ s.categories, c.id = cid) → (∀ b ∈ s.books, b.category ≠ cid) →
      (deleteCategory s cid).1 = 200 ∧
      (deleteCategory s cid).2.books = s.books ∧
      (deleteCategory s cid).2.categories = s.categories.filter (fun c => c.id != cid)) := by
  constructor
  · rintro _ ⟨b, hb, hcat⟩
    have hany : (s.books.any fun b => b.category == cid) = true :=
      List.any_eq_true.2 ⟨b, hb, by simpa using hcat⟩
    unfold deleteCategory
    rw [hany]
    simp
  · rintro ⟨c, hc, hcid⟩ hnone
    have hany : (s.books.any fun b => b.category == cid) = false := by
      rw [Bool.eq_false_iff]
      intro hcontra
      obtain ⟨b, hb, hbcat⟩ := List.any_eq_true.1 hcontra
      exact hnone b hb (by simpa using hbcat)
    have hsome : (findCategory s cid).isSome :=
      List.find?_isSome.2 ⟨c, hc, by simpa using hcid⟩
    obtain ⟨cat, hcat⟩ := Option.isSome_iff_exists.1 hsome
    unfold deleteCategory
    rw [hany, hcat]
    exact ⟨rfl, rfl, rfl⟩

/-- Witness for C2 at concrete stores: with the demo book in category 1 the
deletion is refused with 409 and nothing changes; without referencing books
category 1 is removed. -/
theorem c2_deleteCategory_guard_witness :
    deleteCategory demoStoreWithBook 1 = (409, demoStoreWithBook) ∧
      ((deleteCategory demoStore 1).1 = 200 ∧
        (deleteCategory demoStore 1).2.books = demoStore.books ∧
        (deleteCategory demoStore 1).2.categories
          = demoStore.categories.filter (fun c => c.id != 1)) :=
  ⟨(c2_deleteCategory_guard demoStoreWithBook 1).1 (by decide) (by decide),
    (c2_deleteCategory_guard demoStore 1).2 (by decide) (by decide)⟩

/-- C8 counterexample: the creation request `cex8Req` carries a category
reference (id 5) that names no existing category, yet the service answers
400 — not 404 — because its empty title fails field validation first. -/
theorem c8_counterexample :
    cex8Req.categoryId = some 5 ∧ (∀ c ∈ cex8Store.categories, c.id ≠ 5) ∧
      (postBook cex8Store cex8Req).1 = 400 ∧ (postBook cex8Store cex8Req).1 ≠ 404 := by
  decide

/-- C8 (amended): for every book creation request that passes field
validation (trimmed title, author and isbn non-empty, category reference
present) whose category reference does not name an existing category, the
service answers 404 and the store is unchanged — no book record is created. -/
theorem c8_amended_missing_category_404 (s : Store) (r : BookReq) (cid : Nat)
    (htitle : trimString (r.title.getD "") ≠ "")
    (hauthor : trimString (r.author.getD "") ≠ "")
    (hisbn : trimString (r.isbn.getD "") ≠ "")
    (hcid : r.categoryId = some cid)
    (habsent : ∀ c ∈ s.categories, c.id ≠ cid) :
    postBook s r = (404, s) := by
  unfold postBook
  rw [hcid]
  dsimp only
  rw [if_neg (by simp [htitle, hauthor, hisbn])]
  have hnone : findCategory s cid = none :=
    List.find?_eq_none.2 (fun c hc => by simpa using habsent c hc)
  rw [hnone]

/-- Witness for C8 (amended) at a concrete well-formed request referencing
the missing category id 5. -/
theorem c8_amended_missing_category_404_witness :
    postBook demoStore demo404Req = (404, demoStore) :=
  c8_amended_missing_category_404 demoStore demo404Req 5 (by decide) (by decide)
    (by decide) (by decide) (by decide)

/-- C6 counterexample: in the standalone category service (category.js) a
create request duplicating the existing name "Fiction" is answered 400 —
not the 409 the claim requires — though the store is indeed unchanged. -/
theorem c6_counterexample :
    (∃ c ∈ LegacyCategoryService.legacyCexStore.categories, c.name = "Fiction") ∧
      LegacyCategoryService.legacyPostCategory LegacyCategoryService.legacyCexStore
        (some "Fiction") none none = (400, LegacyCategoryService.legacyCexStore) ∧
      (LegacyCategoryService.legacyPostCategory LegacyCategoryService.legacyCexStore
        (some "Fiction") none none).1 ≠ 409 := by
  decide

/-- C6 (amended): in the library-management service every create or update
request that reaches the uniqueness check and would duplicate an existing
category name or book isbn is answered 409 with the store unchanged; in the
standalone category service (category.js) a duplicate category name on
create is answered 400 — its catch-all maps every save error to 400 — with
the store likewise unchanged. -/
theorem c6_amended_uniqueness_conflicts (s : Store)
    (ls : LegacyCategoryService.LegacyStore) :
    (∀ r n, r.name = some n → trimString n ≠ "" →
      (∃ c ∈ s.categories, c.name = trimString n) →
      postCategory s r = (409, s)) ∧
    (∀ cid r n, r.name = some n → trimString n ≠ "" →
      (findCategory s cid).isSome →
      (∃ c ∈ s.categories, c.name = trimString n ∧ c.id ≠ cid) →
      putCategory s cid r = (409, s)) ∧
    (∀ r cid, r.categoryId = some cid →
      trimString (r.title.getD "") ≠ "" → trimString (r.author.getD "") ≠ "" →
      trimString (r.isbn.getD "") ≠ "" → (findCategory s cid).isSome →
      (∃ b ∈ s.books, b.isbn = trimString (r.isbn.getD "")) →
      postBook s r = (409, s)) ∧
    (∀ bid r book, findBook s bid = some book →
      (r.categoryId = none ∨ r.categoryId = some book.category ∨
        (∃ inc, r.categoryId = some inc ∧ (findCategory s inc).isSome)) →
      (∀ t, r.title = some t → trimString t ≠ "") →
      (∀ a, r.author = some a → trimString a ≠ "") →
      (∀ i, r.isbn = some i → trimString i ≠ "") →
      (∃ b ∈ s.books, b.isbn = (r.isbn.map trimString).getD book.isbn ∧ b.id ≠ bid) →
      putBook s bid r = (409, s)) ∧
    (∀ n bc d, (∃ c ∈ ls.categories, c.name = n) →
      LegacyCategoryService.legacyPostCategory ls (some n) bc d = (400, ls)) := by
  refine ⟨?_, ?_, ?_, ?_, ?_⟩
  · rintro r n hn hne ⟨c, hc, hcname⟩
    unfold postCategory
    rw [hn]
    dsimp only
    rw [if_neg (by simpa using hne)]
    rw [if_pos (List.any_eq_true.2 ⟨c, hc, by simp [hcname]⟩)]
  · rintro cid r n hn hne hsome ⟨c, hc, hcname, hcid⟩
    obtain ⟨cat, hcat⟩ := Option.isSome_iff_exists.1 hsome
    unfold putCategory
    rw [hn]
    rw [if_neg (by simpa using hne), hcat]
    dsimp only
    simp only [Option.any_some]
    rw [if_pos (List.any_eq_true.2 ⟨c, hc, by simp [hcname, hcid]⟩)]
  · rintro r cid hcid htitle hauthor hisbn hsome ⟨b, hb, hbisbn⟩
    obtain ⟨cat, hcat⟩ := Option.isSome_iff_exists.1 hsome
    unfold postBook
    rw [hcid]
    dsimp only
    rw [if_neg (by simp [htitle, hauthor, hisbn]), hcat]
    dsimp only
    rw [if_pos (List.any_eq_true.2 ⟨b, hb, by simp [hbisbn]⟩)]
  · rintro bid r book hfind hresolve htitle hauthor hisbn hdup
    have hcore : ∀ ncid, putBookSave s bid r book ncid = (409, s) := by
      intro ncid
      have h1 : r.title.any (fun t => trimString t == "") = false := by
        cases ht : r.title with
        | none => rfl
        | some t =>
          simp only [Option.any_some]
          rw [beq_eq_false_iff_ne]
          exact htitle t ht
      have h2 : r.author.any (fun a => trimString a == "") = false := by
        cases ha : r.author with
        | none => rfl
        | some a =>
          simp only [Option.any_some]
          rw [beq_eq_false_iff_ne]
          exact hauthor a ha
      have h3 : r.isbn.any (fun i => trimString i == "") = false := by
        cases hi : r.isbn with
        | none => rfl
        | some i =>
          simp only [Option.any_some]
          rw [beq_eq_false_iff_ne]
          exact hisbn i hi
      unfold putBookSave
      dsimp only
      rw [h1, h2, h3]
      obtain ⟨b, hb, hbisbn, hbid⟩ := hdup
      have hupd : (applyBookUpdates r ncid book).isbn
          = (r.isbn.map trimString).getD book.isbn := rfl
      rw [if_neg (by simp)]
      rw [if_pos (List.any_eq_true.2 ⟨b, hb, by simp [hbisbn, hbid, hupd]⟩)]
    unfold putBook
    rw [hfind]
    dsimp only
    rcases hresolve with hnone | hsome | ⟨inc, hinc, hisome⟩
    · rw [hnone]
      dsimp only
      exact hcore book.category
    · rw [hsome]
      dsimp only
      rw [if_pos (by simp)]
      exact hcore book.category
    · obtain ⟨cat, hcat⟩ := Option.isSome_iff_exists.1 hisome
      rw [hinc]
      dsimp only
      by_cases hbc : inc == book.category
      · rw [if_pos hbc]
        exact hcore book.category
      · rw [if_neg hbc, hcat]
        exact hcore cat.id
  · rintro n bc d ⟨c, hc, hcname⟩
    unfold LegacyCategoryService.legacyPostCategory
    dsimp only
    by_cases hn : n == ""
    · rw [if_pos hn]
    · rw [if_neg hn]
      rw [if_pos (List.any_eq_true.2 ⟨c, hc, by simp [hcname]⟩)]

/-- Witness for C6 (amended): the duplicate "Fiction" create in the
library-management service is refused with 409; the duplicate isbn "111" is
refused with 409; an in-place rename to the duplicate "Fiction" is refused
with 409; the duplicate "Fiction" create in the standalone service yields
400; every store is untouched. -/
theorem c6_amended_uniqueness_conflicts_witness :
    postCategory demoStore demoDupCatReq = (409, demoStore) ∧
      putCategory demoStore 2 demoDupCatReq = (409, demoStore) ∧
      postBook demoStoreWithBook demoDupIsbnReq = (409, demoStoreWithBook) ∧
      LegacyCategoryService.legacyPostCategory LegacyCategoryService.legacyCexStore
        (some "Fiction") none none = (400, LegacyCategoryService.legacyCexStore) :=
  ⟨(c6_amended_uniqueness_conflicts demoStore LegacyCategoryService.legacyCexStore).1
      demoDupCatReq "Fiction" (by decide) (by decide) (by decide),
    (c6_amended_uniqueness_conflicts demoStore LegacyCategoryService.legacyCexStore).2.1
      2 demoDupCatReq "Fiction" (by decide) (by decide) (by decide) (by decide),
    (c6_amended_uniqueness_conflicts demoStoreWithBook
        LegacyCategoryService.legacyCexStore).2.2.1
      demoDupIsbnReq 2 (by decide) (by decide) (by decide) (by decide) (by decide)
      (by decide),
    (c6_amended_uniqueness_conflicts demoStore LegacyCategoryService.legacyCexStore).2.2.2.2
      "Fiction" none none (by decide)⟩

end LibraryService

namespace UserService

theorem selectNoPassword_clean (doc : List (String × String)) :
    (selectNoPassword doc).all (fun kv => kv.1 != "password") = true := by
  rw [List.all_eq_true]
  intro kv hkv
  have h := (List.mem_filter.1 hkv).2
  simp only [Bool.and_eq_true, Bool.not_eq_true'] at h
  simpa using h.1

theorem rewriteImageField_clean (f : String → String) (doc : List (String × String))
    (h : doc.all (fun kv => kv.1 != "password") = true) :
    (rewriteImageField f doc).all (fun kv => kv.1 != "password") = true := by
  rw [List.all_eq_true] at h ⊢
  intro kv hkv
  obtain ⟨kv0, hkv0, rfl⟩ := List.mem_map.1 hkv
  have hh := h kv0 hkv0
  split
  · exact hh
  · exact hh

theorem publicUserFields_clean (u : User) :
    (publicUserFields u).all (fun kv => kv.1 != "password") = true := rfl

theorem bodyNoPassword_nil : bodyNoPassword [] = true := rfl

theorem bodyNoPassword_single (doc : List (String × String))
    (h : doc.all (fun kv => kv.1 != "password") = true) :
    bodyNoPassword [doc] = true := by
  simp [bodyNoPassword, h]

/-- C9: no user-service response body ever contains the stored password
hash: every user object returned by any endpoint — list users, get user by
id, register (both service variants), login, update, delete — omits the
password field entirely, for every store, request, and opaque
hash/compare/presign collaborator. -/
theorem c9_no_password_in_responses (H : String → String)
    (matchPw : String → String → Bool) (f : String → String) (s : UserStore)
    (uid : Nat) (rr : RegisterReq) (lr : LoginReq) (ur : UpdateUserReq) :
    bodyNoPassword (getUsers f s).2 = true ∧
    bodyNoPassword (userJsGetUsers s).2 = true ∧
    bodyNoPassword (getUserById f s uid).2 = true ∧
    bodyNoPassword (register H f s rr).2.1 = true ∧
    bodyNoPassword (userJsRegister H s rr).2.1 = true ∧
    bodyNoPassword (login matchPw f s lr).2 = true ∧
    bodyNoPassword (updateUser H f s uid ur).2.1 = true ∧
    bodyNoPassword (deleteUser f s uid).2.1 = true := by
  refine ⟨?_, ?_, ?_, ?_, ?_, ?_, ?_, ?_⟩
  · unfold getUsers bodyNoPassword
    rw [List.all_eq_true]
    intro doc hdoc
    obtain ⟨u, _, rfl⟩ := List.mem_map.1 hdoc
    exact rewriteImageField_clean f _ (selectNoPassword_clean _)
  · unfold userJsGetUsers bodyNoPassword
    rw [List.all_eq_true]
    intro doc hdoc
    obtain ⟨u, _, rfl⟩ := List.mem_map.1 hdoc
    exact selectNoPassword_clean _
  · unfold getUserById
    split
    · exact bodyNoPassword_nil
    · exact bodyNoPassword_single _
        (rewriteImageField_clean f _ (selectNoPassword_clean _))
  · unfold register
    dsimp only
    repeat' split
    all_goals exact bodyNoPassword_nil
  · unfold userJsRegister
    dsimp only
    repeat' split
    all_goals exact bodyNoPassword_nil
  · unfold login
    dsimp only
    repeat' split
    all_goals exact bodyNoPassword_nil
  · unfold updateUser
    dsimp only
    repeat' split
    all_goals exact bodyNoPassword_nil
  · unfold deleteUser
    split
    · exact bodyNoPassword_nil
    · exact bodyNoPassword_single _
        (rewriteImageField_clean f _ (selectNoPassword_clean _))

/-- C10: a registration request whose password and confirmPassword differ is
answered 400 by both register endpoints before any store access: the body
carries no user object and the store is returned unchanged, so no user
record is created or modified. -/
theorem c10_register_mismatch_400 (H : String → String) (f : String → String)
    (s : UserStore) (r : RegisterReq) (h : r.password ≠ r.confirmPassword) :
    register H f s r = (400, [], s) ∧ userJsRegister H s r = (400, [], s) := by
  constructor
  · unfold register
    rw [if_pos (by simpa using h)]
  · unfold userJsRegister
    rw [if_pos (by simpa using h)]

/-- Witness for C10 at a concrete mismatched registration request against the
empty store, with the identity function standing in for the opaque
collaborators. -/
theorem c10_register_mismatch_400_witness :
    demoMismatchReq.password ≠ demoMismatchReq.confirmPassword ∧
      register id id demoUserStore demoMismatchReq = (400, [], demoUserStore) ∧
      userJsRegister id demoUserStore demoMismatchReq = (400, [], demoUserStore) :=
  ⟨by decide,
    (c10_register_mismatch_400 id id demoUserStore demoMismatchReq (by decide)).1,
    (c10_register_mismatch_400 id id demoUserStore demoMismatchReq (by decide)).2⟩

end UserService
